import Mathlib

/-!
Shallow embedding of the two notebooks of `violettance/ml_algorithms`
(`imbalanced_learning.ipynb` and `ensemble_learning.ipynb`).

The notebooks are thin glue around scikit-learn / imbalanced-learn
estimators: they synthesize or load a dataset, split it with
`train_test_split`, optionally resample the training partition, fit an
estimator, predict on the test partition, and print one accuracy line per
scenario.  The glue code (label remappings, the `class_weight` dictionary,
the binarization, the straight-line dataflow of each cell, the recorded
output values) is translated here directly from the notebook source.
Library internals that the notebooks merely invoke (the resampling
algorithms, the splitter, the seeding convention) are modelled from their
documented behaviour, as stated in each doc comment.
-/

namespace MLAlgorithms

/-! ### accuracy_score

`sklearn.metrics.accuracy_score(y_true, y_pred)` for 1-d label arrays is
the fraction of positions where the two arrays agree. -/

/-- Number of positions where the two label vectors agree
(`numpy` elementwise `==` summed over the common length). -/
def matchCount (yTrue yPred : List ℤ) : ℕ :=
  (List.zip yTrue yPred).countP (fun p => decide (p.1 = p.2))

/-- Modelled from the spec: `accuracy_score` (scikit-learn, not under
`src/`) returns the fraction of test labels predicted exactly, a single
scalar in `[0,1]`. -/
def accuracy_score (yTrue yPred : List ℤ) : ℚ :=
  (matchCount yTrue yPred : ℚ) / (yTrue.length : ℚ)

/-! ### Anomaly-prediction remapping (imbalanced_learning.ipynb, One-Class
SVM and Isolation Forest cells)

```
y_pred[y_pred == 1] = 0  # Normal instances
y_pred[y_pred == -1] = 1 # Anomalies
```
Each in-place masked assignment rewrites exactly the entries equal to the
matched value and leaves every other entry unchanged. -/

/-- First masked assignment `y_pred[y_pred == 1] = 0`. -/
def remapNormal (y : List ℤ) : List ℤ :=
  y.map (fun v => if v = 1 then 0 else v)

/-- Second masked assignment `y_pred[y_pred == -1] = 1`. -/
def remapAnomaly (y : List ℤ) : List ℤ :=
  y.map (fun v => if v = -1 then 1 else v)

/-- The two sequential assignments of the anomaly-detection cells. -/
def yPredRemap (y : List ℤ) : List ℤ :=
  remapAnomaly (remapNormal y)

/-! ### Binarization (ensemble_learning.ipynb, stacking cell)

`y_binary = (y > 150).astype(int)` -/

/-- `(y > 150).astype(int)`: elementwise strict comparison, then cast of
the boolean array to integers. -/
def yBinary (y : List ℚ) : List ℤ :=
  y.map (fun v => if 150 < v then 1 else 0)

/-! ### class_weight (imbalanced_learning.ipynb, class-weighting cell)

`class_weight = dict(zip(np.unique(y_train), np.bincount(y_train)))` -/

/-- Largest value of a list of naturals (`0` for the empty list). -/
def listMaxVal (y : List ℕ) : ℕ :=
  y.foldr max 0

/-- `np.unique` on a 1-d array of naturals: the distinct values present,
in increasing order. -/
def np_unique (y : List ℕ) : List ℕ :=
  (List.range (listMaxVal y + 1)).filter (fun i => decide (i ∈ y))

/-- `np.bincount` on a 1-d array of naturals: entry `i` is the number of
occurrences of `i`, for `i = 0 .. max(y)`; the empty array gives an empty
count vector. -/
def np_bincount (y : List ℕ) : List ℕ :=
  if y = [] then [] else (List.range (listMaxVal y + 1)).map (fun i => y.count i)

/-- `dict(zip(np.unique(y_train), np.bincount(y_train)))` as an
association list: `zip` truncates to the shorter argument, and the keys
(distinct values of `y_train`) are pairwise distinct, so lookup in the
association list is lookup in the Python dict. -/
def class_weight (y : List ℕ) : List (ℕ × ℕ) :=
  List.zip (np_unique y) (np_bincount y)

/-! ### train_test_split

Both notebooks call
`train_test_split(X, y, test_size=0.2, random_state=42)`. -/

/-- Result of `train_test_split`: the four arrays it returns. -/
structure SplitResult (α β : Type) where
  X_train : List α
  X_test : List α
  y_train : List β
  y_test : List β

/-- Number of test rows for `test_size=0.2`: scikit-learn takes
`ceil(test_size * n)` rows for the test partition, here `⌈n/5⌉`. -/
def nTestRows (n : ℕ) : ℕ :=
  (n + 4) / 5

/-- Rows of `xs` selected at the positions of `idx`, in order. -/
def selectRows (idx : List ℕ) (xs : List α) : List α :=
  idx.filterMap (fun i => xs[i]?)

/-- Modelled from the spec: `train_test_split` (scikit-learn, not under
`src/`) draws a permutation of the row indices from the seeded generator
(`random_state=42`), takes the first `ceil(test_size*n)` permuted indices
as the test partition and the remaining indices as the train partition,
and applies the same index selection to the features `X` and the labels
`y`.  The permutation is passed here explicitly as `perm`. -/
def train_test_split (X : List α) (y : List β) (perm : List ℕ) : SplitResult α β :=
  let t := nTestRows X.length
  { X_test := selectRows (perm.take t) X
    X_train := selectRows (perm.drop t) X
    y_test := selectRows (perm.take t) y
    y_train := selectRows (perm.drop t) y }

/-! ### Seed dataflow of the library calls (determinism)

Every estimator construction and resampling call of the two notebooks,
with the `random_state` argument it is constructed with in the source.
Modelled from the scikit-learn convention the spec's determinism claim
relies on: an estimator whose algorithm consumes randomness derives its
random stream from `random_state` when one is given, and from the global
(run-dependent) NumPy generator when `random_state=None`; an estimator
whose algorithm consumes no randomness (TomekLinks, OneClassSVM with its
deterministic solver, LogisticRegression with the default solver) has no
random stream at all. -/

/-- One resampling/training call of the notebooks: its constructor name,
whether its algorithm consumes randomness, and the `random_state`
argument written in the source (`none` when the argument is omitted). -/
structure LibCall where
  cname : String
  usesRandomness : Bool
  randomState : Option ℕ
deriving DecidableEq

/-- The seed the call's random stream is derived from in one run:
`some` of the written `random_state` when the algorithm consumes
randomness (falling back to the run-dependent ambient generator state
when `random_state` is omitted), `none` when it consumes no randomness. -/
def effectiveSeed (c : LibCall) (ambient : ℕ) : Option ℕ :=
  if c.usesRandomness then some (c.randomState.getD ambient) else none

/-- A call is reproducible when the seed of its random stream does not
depend on the run's ambient generator state. -/
def DeterministicCall (c : LibCall) : Prop :=
  ∀ a1 a2 : ℕ, effectiveSeed c a1 = effectiveSeed c a2

instance : DecidablePred DeterministicCall := fun c => by
  unfold DeterministicCall effectiveSeed
  cases hc : c.usesRandomness with
  | false => exact .isTrue (fun _ _ => by simp)
  | true =>
    cases hr : c.randomState with
    | some s => exact .isTrue (fun _ _ => by simp [hr])
    | none =>
      exact .isFalse (fun h => by have := h 0 1; simp [hr] at this)

/-- Every resampling or training call appearing in the two notebooks, in
source order, with the `random_state` argument written there. -/
def notebookCalls : List LibCall :=
  [⟨"make_classification", true, some 42⟩,
   ⟨"train_test_split (synthetic)", true, some 42⟩,
   ⟨"train_test_split (digits)", true, some 42⟩,
   ⟨"train_test_split (wine)", true, some 42⟩,
   ⟨"train_test_split (diabetes)", true, some 42⟩,
   ⟨"ClusterCentroids", true, some 42⟩,
   ⟨"RandomForestClassifier (after ClusterCentroids)", true, some 42⟩,
   ⟨"TomekLinks", false, none⟩,
   ⟨"RandomForestClassifier (after TomekLinks)", true, some 42⟩,
   ⟨"SMOTE", true, some 42⟩,
   ⟨"RandomForestClassifier (after SMOTE)", true, some 42⟩,
   ⟨"SMOTEENN", true, some 42⟩,
   ⟨"RandomForestClassifier (after SMOTEENN)", true, some 42⟩,
   ⟨"ADASYN", true, some 42⟩,
   ⟨"RandomForestClassifier (after ADASYN)", true, some 42⟩,
   ⟨"DecisionTreeClassifier (class weighting)", true, some 42⟩,
   ⟨"DecisionTreeClassifier (cost-sensitive)", true, some 42⟩,
   ⟨"OneClassSVM", false, none⟩,
   ⟨"IsolationForest", true, none⟩,
   ⟨"DecisionTreeClassifier (bagging base)", true, some 42⟩,
   ⟨"BaggingClassifier", true, some 42⟩,
   ⟨"DecisionTreeClassifier (adaboost base)", true, some 42⟩,
   ⟨"AdaBoostClassifier", true, some 42⟩,
   ⟨"RandomForestClassifier (stacking base)", true, some 42⟩,
   ⟨"GradientBoostingClassifier (stacking base)", true, some 42⟩,
   ⟨"LogisticRegression (stacking meta)", false, none⟩,
   ⟨"StackingClassifier", false, none⟩]

/-! ### Resampling transformations (imbalanced_learning.ipynb)

The resampling algorithms live in imbalanced-learn, not under `src/`.
They are modelled structurally, from the notebook's own descriptions of
the techniques: under-sampling removes majority rows (Tomek links) or
replaces them by cluster centroids; over-sampling (SMOTE, ADASYN) adds
synthetic rows interpolated between existing rows; SMOTEENN composes
SMOTE with a cleaning removal.  The data-dependent choices each
algorithm makes (which rows to drop, the clustering, the interpolation
pairs) are passed as explicit parameters, so the models cover every
choice the library could make. -/

/-- Width of the first row (`0` for an empty list of rows). -/
def rowWidth (rows : List (List ℚ)) : ℕ :=
  ((rows.head?).map List.length).getD 0

/-- Coordinatewise mean of a collection of rows, over the width of the
first row (the centroid of a k-means cluster). -/
def meanRow (rows : List (List ℚ)) : List ℚ :=
  (List.range (rowWidth rows)).map
    (fun j => (rows.map (fun r => (r.get? j).getD 0)).sum / (rows.length : ℚ))

/-- Rows of `X` whose index is not in `removed`, in order (a masked row
removal, as performed by Tomek-links cleaning and by ENN). -/
def dropRowsAt (removed : List ℕ) (X : List α) : List α :=
  (X.enum.filter (fun p => decide (p.1 ∉ removed))).map Prod.snd

/-- Modelled from the spec: `TomekLinks().fit_resample` (imbalanced-learn,
not under `src/`) under-samples by deleting the majority members of Tomek
link pairs; which rows form such pairs is data-dependent and is passed as
the index set `removed`.  Every surviving row is a row of the input. -/
def tomekLinksResample (X : List (List ℚ)) (y : List ℤ) (removed : List ℕ) :
    List (List ℚ) × List ℤ :=
  (dropRowsAt removed X, dropRowsAt removed y)

/-- Rows of `X` whose paired label equals `c`. -/
def rowsOfClass (X : List (List ℚ)) (y : List ℤ) (c : ℤ) : List (List ℚ) :=
  ((List.zip X y).filter (fun p => decide (p.2 = c))).map Prod.fst

/-- Modelled from the spec: `ClusterCentroids(random_state=42).fit_resample`
(imbalanced-learn, not under `src/`) keeps the minority rows (class 1 in
this notebook) and replaces the majority rows by the centroids of a
k-means clustering of them; the clustering itself is passed as `clusters`,
each cluster a nonempty sub-collection of the majority rows. -/
def clusterCentroidsResample (X : List (List ℚ)) (y : List ℤ)
    (clusters : List (List (List ℚ))) : List (List ℚ) × List ℤ :=
  (rowsOfClass X y 1 ++ clusters.map meanRow,
   (rowsOfClass X y 1).map (fun _ => 1) ++ clusters.map (fun _ => 0))

/-- Linear interpolation between two rows: `a + lam * (b - a)`,
coordinatewise. -/
def interpolateRow (a b : List ℚ) (lam : ℚ) : List ℚ :=
  List.zipWith (fun u v => u + lam * (v - u)) a b

/-- Modelled from the spec: `SMOTE(random_state=42).fit_resample`
(imbalanced-learn, not under `src/`) appends synthetic minority rows,
each interpolated between a minority row and one of its neighbours; the
seeded random choices (which pair, which interpolation coefficient) are
passed as the triples `synths = (i, j, lam)`. -/
def smoteResample (X : List (List ℚ)) (y : List ℤ) (synths : List (ℕ × ℕ × ℚ)) :
    List (List ℚ) × List ℤ :=
  (X ++ synths.map (fun s => interpolateRow ((X[s.1]?).getD []) ((X[s.2.1]?).getD []) s.2.2),
   y ++ synths.map (fun _ => 1))

/-- Modelled from the spec: `ADASYN(random_state=42).fit_resample`
(imbalanced-learn, not under `src/`) generates synthetic rows by the same
interpolation mechanism as SMOTE; ADASYN differs only in how many
synthetic rows it allots to each minority sample, which is absorbed into
the `synths` parameter. -/
def adasynResample (X : List (List ℚ)) (y : List ℤ) (synths : List (ℕ × ℕ × ℚ)) :
    List (List ℚ) × List ℤ :=
  smoteResample X y synths

/-- Modelled from the spec: `SMOTEENN(random_state=42).fit_resample`
(imbalanced-learn, not under `src/`) runs SMOTE and then cleans the
result with Edited Nearest Neighbours, a removal of rows; the ENN
decision is passed as the index set `removed`. -/
def smoteennResample (X : List (List ℚ)) (y : List ℤ)
    (synths : List (ℕ × ℕ × ℚ)) (removed : List ℕ) : List (List ℚ) × List ℤ :=
  let r := smoteResample X y synths
  (dropRowsAt removed r.1, dropRowsAt removed r.2)

/-! ### The scenario cell pattern

Each resampling scenario cell of imbalanced_learning.ipynb is the same
straight-line code, e.g. the Tomek Links cell:

```
X_train_resampled, y_train_resampled = tomek_links.fit_resample(X_train, y_train)
rf_model = RandomForestClassifier(random_state=42)
rf_model.fit(X_train_resampled, y_train_resampled)
y_pred = rf_model.predict(X_test)
accuracy = accuracy_score(y_test, y_pred)
print("Accuracy after Tomek Links under-sampling:", accuracy)
```

`X_test` and `y_test` are never assigned in any scenario cell. -/

/-- The four in-memory arrays a scenario cell starts from. -/
structure SplitData where
  X_train : List (List ℚ)
  y_train : List ℤ
  X_test : List (List ℚ)
  y_test : List ℤ

/-- A resampling scenario cell, translated statement by statement; the
library calls are the parameters `fit_resample` (the resampler) and `fit`
(classifier training, returning the fitted model's predict function).
It returns the final variable state and the printed accuracy. -/
def runResampleScenario
    (fit_resample : List (List ℚ) → List ℤ → List (List ℚ) × List ℤ)
    (fit : List (List ℚ) → List ℤ → (List (List ℚ) → List ℤ))
    (d : SplitData) : SplitData × ℚ :=
  let r := fit_resample d.X_train d.y_train
  let model := fit r.1 r.2
  let y_pred := model d.X_test
  let accuracy := accuracy_score d.y_test y_pred
  ({ d with X_train := r.1, y_train := r.2 }, accuracy)

/-- The same scenario cell with fallible library calls.  Neither notebook
contains a `try`/`except` (or any other handler), so the cell is a plain
sequential composition in the exception monad: each statement runs only
if the previous statements succeeded, and a raised exception aborts the
cell before the `print`.  `.ok` carries the single printed line (label
paired with the accuracy value); `.error` carries the propagated
exception. -/
def runResampleScenarioE (label : String)
    (fit_resample : List (List ℚ) → List ℤ → Except String (List (List ℚ) × List ℤ))
    (fit : List (List ℚ) → List ℤ → Except String (List (List ℚ) → Except String (List ℤ)))
    (d : SplitData) : Except String (List (String × ℚ)) := do
  let r ← fit_resample d.X_train d.y_train
  let model ← fit r.1 r.2
  let y_pred ← model d.X_test
  pure [(label, accuracy_score d.y_test y_pred)]

/-! ### The recorded scenarios

Each scenario of the two notebooks, with the test-partition size and the
number of correct test predictions its recorded output corresponds to
(the output cells stored in the `.ipynb` sources: e.g.
`Accuracy after Tomek Links under-sampling: 0.985` on the 200-row test
partition is 197 correct out of 200). -/

/-- One reported scenario: its printed label, the size of the test
partition it scores on, and the number of correct predictions recorded. -/
structure Scenario where
  label : String
  nTestSamples : ℕ
  numCorrect : ℕ

/-- The accuracy value the scenario reports. -/
def Scenario.reportedAccuracy (s : Scenario) : ℚ :=
  (s.numCorrect : ℚ) / (s.nTestSamples : ℚ)

/-- The scenario's external output: the single plain-text line pairing
its descriptive label with its accuracy value. -/
def Scenario.outputLines (s : Scenario) : List (String × ℚ) :=
  [(s.label, s.reportedAccuracy)]

/-- The Tomek Links end-to-end scenario (recorded output `0.985`). -/
def tomekScenario : Scenario :=
  ⟨"Accuracy after Tomek Links under-sampling", 200, 197⟩

/-- All thirteen reported scenarios of the two notebooks, in source
order, from the recorded output cells. -/
def scenarios : List Scenario :=
  [⟨"Accuracy after under-sampling", 200, 141⟩,
   tomekScenario,
   ⟨"Accuracy after over-sampling", 200, 194⟩,
   ⟨"Accuracy after combined resampling", 200, 194⟩,
   ⟨"Accuracy after SMOTE over-sampling", 200, 194⟩,
   ⟨"Accuracy after ADASYN over-sampling", 200, 195⟩,
   ⟨"Accuracy with class weighting", 200, 193⟩,
   ⟨"Accuracy with cost-sensitive learning", 200, 195⟩,
   ⟨"Accuracy with anomaly detection", 200, 91⟩,
   ⟨"Accuracy with Isolation Forest", 200, 192⟩,
   ⟨"Bagging Accuracy", 360, 340⟩,
   ⟨"AdaBoost Accuracy", 36, 33⟩,
   ⟨"Stacking Accuracy", 89, 67⟩]

/-- The dataset, split, resampler and classifier parameters of the
end-to-end Tomek Links run, as written in the source. -/
structure EndToEndRun where
  nSamples : ℕ
  nFeatures : ℕ
  weights : List ℚ
  dataRandomState : ℕ
  splitRandomState : ℕ
  testSize : ℚ
  classifierRandomState : ℕ
  scenario : Scenario

/-- The literal end-to-end scenario:
`make_classification(n_samples=1000, n_features=20, weights=[0.99, 0.01], random_state=42)`,
`train_test_split(X, y, test_size=0.2, random_state=42)`, `TomekLinks()`,
`RandomForestClassifier(random_state=42)`. -/
def tomekEndToEnd : EndToEndRun :=
  ⟨1000, 20, [99/100, 1/100], 42, 42, 1/5, 42, tomekScenario⟩

/-! ## Theorems -/

/-- Reduction of `Except` bind on a success value. -/
theorem except_bind_ok {α β ε : Type} (a : α) (f : α → Except ε β) :
    (Except.ok a >>= f) = f a := rfl

/-- Reduction of `Except` bind on a raised exception. -/
theorem except_bind_error {α β ε : Type} (e : ε) (f : α → Except ε β) :
    ((Except.error e : Except ε α) >>= f) = Except.error e := rfl

/-- Reduction of `Except` map on a success value. -/
theorem except_map_ok {α β ε : Type} (f : α → β) (a : α) :
    (f <$> (Except.ok a : Except ε α)) = Except.ok (f a) := rfl

/-- Reduction of `Except` map on a raised exception. -/
theorem except_map_error {α β ε : Type} (f : α → β) (e : ε) :
    (f <$> (Except.error e : Except ε α)) = Except.error e := rfl

/-- C9: for every prediction vector with entries in `{-1, 1}`, the two
sequential masked assignments `y_pred[y_pred == 1] = 0` then
`y_pred[y_pred == -1] = 1` produce a vector with entries in `{0, 1}`,
mapping every original `1` to `0` and every original `-1` to `1`; and the
second assignment leaves every entry rewritten by the first assignment
untouched. -/
theorem yPredRemap_spec (y : List ℤ) (h : ∀ v ∈ y, v = 1 ∨ v = -1) :
    (∀ v ∈ yPredRemap y, v = 0 ∨ v = 1) ∧
    yPredRemap y = y.map (fun v => if v = 1 then 0 else 1) ∧
    (∀ i, y.get? i = some 1 → (yPredRemap y).get? i = (remapNormal y).get? i) := by
  have hmap : yPredRemap y = y.map (fun v => if v = 1 then 0 else 1) := by
    unfold yPredRemap remapAnomaly remapNormal
    rw [List.map_map]
    refine List.map_congr_left ?_
    intro v hv
    rcases h v hv with h1 | h1 <;> subst h1 <;> norm_num
  refine ⟨?_, hmap, ?_⟩
  · intro v hv
    rw [hmap] at hv
    rcases List.mem_map.mp hv with ⟨w, _, hw⟩
    by_cases hw1 : w = 1 <;> simp [hw1] at hw <;> omega
  · intro i hi
    unfold yPredRemap remapAnomaly remapNormal
    rw [List.get?_map, List.get?_map, hi]
    norm_num

/-- C9 witness at the concrete vector `[1, -1]`. -/
theorem yPredRemap_spec_witness :
    (∀ v ∈ yPredRemap [1, -1], v = 0 ∨ v = 1) ∧
    yPredRemap [1, -1] = List.map (fun v => if v = 1 then 0 else 1) [1, -1] ∧
    (∀ i, List.get? [1, -1] i = some 1 →
      (yPredRemap [1, -1]).get? i = (remapNormal [1, -1]).get? i) :=
  yPredRemap_spec [1, -1] (by decide)

/-- C10: the binarization `y_binary = (y > 150).astype(int)` produces a
vector with entries in `{0, 1}`, whose entry `i` is `1` exactly when
`y[i] > 150` and `0` exactly when it is not. -/
theorem yBinary_spec (y : List ℚ) :
    (∀ v ∈ yBinary y, v = 0 ∨ v = 1) ∧
    (∀ i x, y.get? i = some x →
      ((yBinary y).get? i = some 1 ↔ 150 < x) ∧
      ((yBinary y).get? i = some 0 ↔ ¬ 150 < x)) := by
  constructor
  · intro v hv
    rcases List.mem_map.mp hv with ⟨w, _, hw⟩
    by_cases h1 : (150 : ℚ) < w <;> simp [h1] at hw <;> omega
  · intro i x hx
    unfold yBinary
    rw [List.get?_map, hx]
    by_cases h1 : (150 : ℚ) < x <;> simp [h1]

/-- C10 witness at the concrete vector `[100, 200]`. -/
theorem yBinary_spec_witness :
    ((yBinary [100, 200]).get? 1 = some 1 ↔ (150 : ℚ) < 200) ∧
    ((yBinary [100, 200]).get? 1 = some 0 ↔ ¬ (150 : ℚ) < 200) :=
  (yBinary_spec [100, 200]).2 1 200 rfl

/-- C2: in the literal end-to-end scenario (synthetic dataset of 1000
samples and 20 features with weights `[0.99, 0.01]` and seed 42, an 80/20
split with seed 42, `TomekLinks()` resampling, and a
`RandomForestClassifier(random_state=42)` scored on the 200-row test
partition), the recorded accuracy is exactly `0.985`, i.e. 197 correct
predictions out of 200. -/
theorem tomek_end_to_end_accuracy :
    tomekEndToEnd.scenario.reportedAccuracy = 0.985 ∧
    tomekEndToEnd.nSamples = 1000 ∧
    nTestRows tomekEndToEnd.nSamples = tomekEndToEnd.scenario.nTestSamples ∧
    tomekEndToEnd.scenario.nTestSamples = 200 ∧
    tomekEndToEnd.scenario.numCorrect = 197 ∧
    (0.985 : ℚ) = 197 / 200 := by
  refine ⟨?_, rfl, rfl, rfl, rfl, by norm_num⟩
  unfold tomekEndToEnd tomekScenario Scenario.reportedAccuracy
  norm_num

/-- C4: the recorded accuracy of every reported scenario lies in the
closed interval `[0, 1]` and the scenario's only external output is the
single line pairing its label with that accuracy; moreover
`accuracy_score` itself always returns a value in `[0, 1]` on a nonempty
test vector. -/
theorem accuracy_in_unit_interval (yt yp : List ℤ) (h : yt ≠ []) :
    (∀ s ∈ scenarios, 0 ≤ s.reportedAccuracy ∧ s.reportedAccuracy ≤ 1 ∧
      s.outputLines = [(s.label, s.reportedAccuracy)]) ∧
    0 ≤ accuracy_score yt yp ∧ accuracy_score yt yp ≤ 1 := by
  refine ⟨?_, ?_, ?_⟩
  · intro s hs
    fin_cases hs <;>
      exact ⟨by norm_num [Scenario.reportedAccuracy, tomekScenario],
             by norm_num [Scenario.reportedAccuracy, tomekScenario], rfl⟩
  · unfold accuracy_score
    positivity
  · unfold accuracy_score
    have hlen : 0 < yt.length := List.length_pos.mpr h
    rw [div_le_one (by exact_mod_cast hlen)]
    have hle : matchCount yt yp ≤ yt.length := by
      calc matchCount yt yp ≤ (List.zip yt yp).length := List.countP_le_length _
        _ ≤ yt.length := by rw [List.length_zip]; omega
    exact_mod_cast hle

/-- C4 witness at the concrete vectors `[0]` and `[0]`. -/
theorem accuracy_in_unit_interval_witness :
    (∀ s ∈ scenarios, 0 ≤ s.reportedAccuracy ∧ s.reportedAccuracy ≤ 1 ∧
      s.outputLines = [(s.label, s.reportedAccuracy)]) ∧
    0 ≤ accuracy_score [0] [0] ∧ accuracy_score [0] [0] ≤ 1 :=
  accuracy_in_unit_interval [0] [0] (by decide)

/-- C1 counterexample: it is not the case that every resampling or
training call of the notebooks is deterministic — the `IsolationForest()`
call is constructed without a `random_state` argument, so its random
stream is seeded from the run-dependent global generator (ambient states
`0` and `1` give it different effective seeds). -/
theorem notebookCalls_not_all_deterministic :
    ¬ ∀ c ∈ notebookCalls, DeterministicCall c := by
  intro h
  have hm : (⟨"IsolationForest", true, none⟩ : LibCall) ∈ notebookCalls := by
    simp [notebookCalls]
  have h2 := h _ hm 0 1
  simp [effectiveSeed] at h2

/-- C1 (amended): every resampling or training call of the notebooks
other than the `IsolationForest()` call has a run-independent random
stream — either its algorithm consumes no randomness (`TomekLinks()`,
`OneClassSVM()`, the default `LogisticRegression()` and the stacking
cross-validation) or it is constructed with `random_state=42` — and is
therefore deterministic and reproducible. -/
theorem notebookCalls_deterministic_except_iforest (c : LibCall)
    (hm : c ∈ notebookCalls) (hn : c.cname ≠ "IsolationForest") :
    DeterministicCall c := by
  intro a1 a2
  fin_cases hm <;> first | rfl | exact absurd rfl hn

/-- C1 witness: the `TomekLinks()` call is deterministic (ambient states
`0` and `1` give it the same effective seed). -/
theorem notebookCalls_deterministic_witness :
    effectiveSeed ⟨"TomekLinks", false, none⟩ 0 =
      effectiveSeed ⟨"TomekLinks", false, none⟩ 1 :=
  notebookCalls_deterministic_except_iforest ⟨"TomekLinks", false, none⟩
    (by simp [notebookCalls]) (by simp) 0 1

/-- C7: in every resampling scenario, the cell leaves the held-out test
partition unchanged (only the training arrays are rebound), and the
printed accuracy is computed from the original `y_test` and the model's
predictions on the original `X_test`. -/
theorem runResampleScenario_frame
    (fr : List (List ℚ) → List ℤ → List (List ℚ) × List ℤ)
    (fit : List (List ℚ) → List ℤ → (List (List ℚ) → List ℤ))
    (d : SplitData) :
    (runResampleScenario fr fit d).1.X_test = d.X_test ∧
    (runResampleScenario fr fit d).1.y_test = d.y_test ∧
    (runResampleScenario fr fit d).2 =
      accuracy_score d.y_test
        (fit (fr d.X_train d.y_train).1 (fr d.X_train d.y_train).2 d.X_test) :=
  ⟨rfl, rfl, rfl⟩

/-- C8: the scenario cells define no error handling, so an exception
raised by any of the three library calls (`fit_resample`, `fit`,
`predict`) propagates unchanged out of the cell and the cell produces no
accuracy line; when every call succeeds the cell outputs exactly its one
accuracy line. -/
theorem runResampleScenarioE_propagates (label : String)
    (fr : List (List ℚ) → List ℤ → Except String (List (List ℚ) × List ℤ))
    (fit : List (List ℚ) → List ℤ →
      Except String (List (List ℚ) → Except String (List ℤ)))
    (d : SplitData) (e : String) :
    (fr d.X_train d.y_train = .error e →
      runResampleScenarioE label fr fit d = .error e) ∧
    (∀ r, fr d.X_train d.y_train = .ok r → fit r.1 r.2 = .error e →
      runResampleScenarioE label fr fit d = .error e) ∧
    (∀ r m, fr d.X_train d.y_train = .ok r → fit r.1 r.2 = .ok m →
      m d.X_test = .error e →
      runResampleScenarioE label fr fit d = .error e) ∧
    (∀ r m yp, fr d.X_train d.y_train = .ok r → fit r.1 r.2 = .ok m →
      m d.X_test = .ok yp →
      runResampleScenarioE label fr fit d =
        .ok [(label, accuracy_score d.y_test yp)]) := by
  refine ⟨?_, ?_, ?_, ?_⟩
  · intro h1
    simp only [runResampleScenarioE, h1, except_bind_error]
  · intro r h1 h2
    simp only [runResampleScenarioE, h1, except_bind_ok, h2, except_bind_error]
  · intro r m h1 h2 h3
    simp only [runResampleScenarioE, h1, except_bind_ok, h2, h3, except_bind_error]
  · intro r m yp h1 h2 h3
    simp only [runResampleScenarioE, h1, except_bind_ok, h2, h3]
    rfl

/-- C8 witness: a concrete failing `fit_resample` aborts the cell with
its exception and no output line. -/
theorem runResampleScenarioE_propagates_witness :
    runResampleScenarioE "Accuracy" (fun _ _ => .error "ValueError")
      (fun _ _ => .error "ValueError") ⟨[], [], [], []⟩ = .error "ValueError" :=
  (runResampleScenarioE_propagates "Accuracy" (fun _ _ => .error "ValueError")
    (fun _ _ => .error "ValueError") ⟨[], [], [], []⟩ "ValueError").1 rfl

/-! ### Helper lemmas for the class_weight and split theorems -/

/-- Every member of a list of naturals is bounded by its fold max. -/
theorem le_listMaxVal {y : List ℕ} {a : ℕ} (h : a ∈ y) : a ≤ listMaxVal y := by
  induction y with
  | nil => cases h
  | cons b t ih =>
    simp only [listMaxVal, List.foldr_cons] at *
    rcases List.mem_cons.mp h with h1 | h1
    · exact h1 ▸ Nat.le_max_left _ _
    · exact Nat.le_trans (ih h1) (Nat.le_max_right _ _)

/-- The fold max of a list of naturals is bounded by any bound of its
members. -/
theorem listMaxVal_le {y : List ℕ} {b : ℕ} (h : ∀ x ∈ y, x ≤ b) :
    listMaxVal y ≤ b := by
  induction y with
  | nil => exact Nat.zero_le b
  | cons c t ih =>
    simp only [listMaxVal, List.foldr_cons] at *
    exact Nat.max_le.mpr
      ⟨h c (List.mem_cons_self c t), ih (fun x hx => h x (List.mem_cons_of_mem _ hx))⟩

/-- Looking up a key in the association list that zips a contiguous index
range with its image under `f` retrieves the image of the key. -/
theorem lookup_zip_range' (f : ℕ → ℕ) (k : ℕ) :
    ∀ s l : ℕ, s ≤ l → l < s + k →
      List.lookup l (List.zip (List.range' s k) ((List.range' s k).map f)) =
        some (f l) := by
  induction k with
  | zero => intro s l h1 h2; omega
  | succ k ih =>
    intro s l h1 h2
    rw [List.range'_succ]
    by_cases hls : l = s
    · subst hls
      simp [List.lookup]
    · simp only [List.map_cons, List.zip_cons_cons, List.lookup_cons,
        beq_false_of_ne hls]
      exact ih (s + 1) l (by omega) (by omega)

/-- C5: `dict(zip(np.unique(y_train), np.bincount(y_train)))` maps each
class label to the raw number of samples of that class in `y_train`, for
every label vector whose distinct labels are exactly `0 .. k-1`. -/
theorem class_weight_raw_counts (y : List ℕ) (k : ℕ) (hk : 0 < k)
    (hub : ∀ x ∈ y, x < k) (hall : ∀ i, i < k → i ∈ y) (l : ℕ) (hl : l < k) :
    List.lookup l (class_weight y) = some (y.count l) := by
  have hmax : listMaxVal y = k - 1 := by
    apply Nat.le_antisymm
    · exact listMaxVal_le (fun x hx => by have := hub x hx; omega)
    · exact le_listMaxVal (hall (k - 1) (by omega))
  have hk1 : listMaxVal y + 1 = k := by omega
  have hne : y ≠ [] := by
    intro h0
    rw [h0] at hall
    exact absurd (hall 0 hk) (by simp)
  have huniq : np_unique y = List.range k := by
    unfold np_unique
    rw [hk1]
    apply List.filter_eq_self.mpr
    intro a ha
    exact decide_eq_true (hall a (List.mem_range.mp ha))
  have hbin : np_bincount y = (List.range k).map (fun i => y.count i) := by
    unfold np_bincount
    rw [if_neg hne, hk1]
  unfold class_weight
  rw [huniq, hbin, List.range_eq_range']
  exact lookup_zip_range' _ k 0 l (Nat.zero_le l) (by omega)

/-- C5 witness: on `y_train = [0, 1, 0, 0]` (labels exactly `0..1`), the
dictionary maps label `0` to its raw count `3`. -/
theorem class_weight_raw_counts_witness :
    List.lookup 0 (class_weight [0, 1, 0, 0]) =
      some (([0, 1, 0, 0] : List ℕ).count 0) :=
  class_weight_raw_counts [0, 1, 0, 0] 2 (by decide) (by decide) (by decide)
    0 (by decide)

/-- Selecting rows at a list of in-bounds positions yields one row per
position. -/
theorem selectRows_length {α : Type} {idx : List ℕ} {xs : List α}
    (h : ∀ i ∈ idx, i < xs.length) : (selectRows idx xs).length = idx.length := by
  induction idx with
  | nil => rfl
  | cons i t ih =>
    have hi : i < xs.length := h i (List.mem_cons_self i t)
    have hX : xs[i]? = some xs[i] := List.getElem?_eq_getElem hi
    have ht := ih (fun j hj => h j (List.mem_cons_of_mem _ hj))
    unfold selectRows at ht ⊢
    rw [List.filterMap_cons_some hX, List.length_cons, ht, List.length_cons]

/-- Selecting rows commutes with pairing features and labels row by
row: selecting from the zipped table equals zipping the two
selections. -/
theorem selectRows_zip {α β : Type} (idx : List ℕ) (X : List α) (y : List β)
    (hlen : X.length = y.length) (h : ∀ i ∈ idx, i < X.length) :
    selectRows idx (List.zip X y) =
      List.zip (selectRows idx X) (selectRows idx y) := by
  induction idx with
  | nil => rfl
  | cons i t ih =>
    have hi : i < X.length := h i (List.mem_cons_self i t)
    have hiy : i < y.length := hlen ▸ hi
    have hiz : i < (List.zip X y).length := by
      rw [List.length_zip]; omega
    have hX : X[i]? = some X[i] := List.getElem?_eq_getElem hi
    have hY : y[i]? = some y[i] := List.getElem?_eq_getElem hiy
    have hZ : (List.zip X y)[i]? = some (X[i], y[i]) := by
      rw [List.getElem?_eq_getElem hiz]
      congr 1
      exact List.getElem_zip
    have ht := ih (fun j hj => h j (List.mem_cons_of_mem _ hj))
    simp [selectRows, List.filterMap_cons, hX, hY, hZ, List.zip_cons_cons] at *
    exact ht

/-- The test-row count never exceeds the row count. -/
theorem nTestRows_le (n : ℕ) : nTestRows n ≤ n := by
  unfold nTestRows
  omega

/-- C6: `train_test_split(X, y, test_size=0.2, random_state=42)` splits
the `n` rows along a permutation of the row indices: the test partition
takes `ceil(n/5)` rows (200 of 1000) and the train partition the
remaining 80%, the two index sets are disjoint and together exhaust the
dataset, and features and labels of each partition are selected by the
same indices, so each partition pairs every feature row with its own
label. -/
theorem train_test_split_partition {α β : Type} (X : List α) (y : List β)
    (n : ℕ) (perm : List ℕ) (hX : X.length = n) (hY : y.length = n)
    (hperm : perm.Perm (List.range n)) :
    ((train_test_split X y perm).X_test.length = nTestRows n ∧
     (train_test_split X y perm).y_test.length = nTestRows n ∧
     (train_test_split X y perm).X_train.length = n - nTestRows n ∧
     (train_test_split X y perm).y_train.length = n - nTestRows n) ∧
    (perm.take (nTestRows n) ++ perm.drop (nTestRows n)).Perm (List.range n) ∧
    List.Disjoint (perm.take (nTestRows n)) (perm.drop (nTestRows n)) ∧
    (List.zip (train_test_split X y perm).X_test (train_test_split X y perm).y_test
        = selectRows (perm.take (nTestRows n)) (List.zip X y) ∧
     List.zip (train_test_split X y perm).X_train (train_test_split X y perm).y_train
        = selectRows (perm.drop (nTestRows n)) (List.zip X y)) ∧
    nTestRows 1000 = 200 := by
  subst hX
  have hplen : perm.length = X.length := hperm.length_eq.trans (List.length_range _)
  have hmem : ∀ i ∈ perm, i < X.length :=
    fun i hi => List.mem_range.mp (hperm.mem_iff.mp hi)
  have hmemT : ∀ i ∈ perm.take (nTestRows X.length), i < X.length :=
    fun i hi => hmem i (List.take_subset _ _ hi)
  have hmemD : ∀ i ∈ perm.drop (nTestRows X.length), i < X.length :=
    fun i hi => hmem i (List.drop_subset _ _ hi)
  have hmemTy : ∀ i ∈ perm.take (nTestRows X.length), i < y.length := by
    rw [hY]; exact hmemT
  have hmemDy : ∀ i ∈ perm.drop (nTestRows X.length), i < y.length := by
    rw [hY]; exact hmemD
  have hTlen : (perm.take (nTestRows X.length)).length = nTestRows X.length := by
    rw [List.length_take]
    have := nTestRows_le X.length
    omega
  have hDlen : (perm.drop (nTestRows X.length)).length
      = X.length - nTestRows X.length := by
    rw [List.length_drop]
    omega
  refine ⟨⟨?_, ?_, ?_, ?_⟩, ?_, ?_, ⟨?_, ?_⟩, by norm_num [nTestRows]⟩
  · show (selectRows (perm.take (nTestRows X.length)) X).length = _
    rw [selectRows_length hmemT, hTlen]
  · show (selectRows (perm.take (nTestRows X.length)) y).length = _
    rw [selectRows_length hmemTy, hTlen]
  · show (selectRows (perm.drop (nTestRows X.length)) X).length = _
    rw [selectRows_length hmemD, hDlen]
  · show (selectRows (perm.drop (nTestRows X.length)) y).length = _
    rw [selectRows_length hmemDy, hDlen]
  · rw [List.take_append_drop]
    exact hperm
  · have hnd2 : (perm.take (nTestRows X.length)
        ++ perm.drop (nTestRows X.length)).Nodup := by
      rw [List.take_append_drop]
      exact hperm.nodup_iff.mpr (List.nodup_range _)
    exact (List.nodup_append.mp hnd2).2.2
  · exact (selectRows_zip _ X y hY.symm hmemT).symm
  · exact (selectRows_zip _ X y hY.symm hmemD).symm

/-- C6 witness on a concrete 5-row dataset with the permutation
`[2, 0, 4, 1, 3]` (test partition of one row). -/
theorem train_test_split_partition_witness :
    ((train_test_split [10, 20, 30, 40, 50] [5, 6, 7, 8, 9]
        [2, 0, 4, 1, 3]).X_test.length = nTestRows 5 ∧
      ((train_test_split [10, 20, 30, 40, 50] [5, 6, 7, 8, 9]
        [2, 0, 4, 1, 3]).y_test.length : ℕ) = nTestRows 5 ∧
      (train_test_split [10, 20, 30, 40, 50] [5, 6, 7, 8, 9]
        [2, 0, 4, 1, 3]).X_train.length = 5 - nTestRows 5 ∧
      (train_test_split [10, 20, 30, 40, 50] [5, 6, 7, 8, 9]
        [2, 0, 4, 1, 3]).y_train.length = 5 - nTestRows 5) ∧
    (List.take (nTestRows 5) [2, 0, 4, 1, 3]
        ++ List.drop (nTestRows 5) [2, 0, 4, 1, 3]).Perm (List.range 5) ∧
    List.Disjoint (List.take (nTestRows 5) [2, 0, 4, 1, 3])
      (List.drop (nTestRows 5) [2, 0, 4, 1, 3]) ∧
    (List.zip (train_test_split [10, 20, 30, 40, 50] [5, 6, 7, 8, 9]
          [2, 0, 4, 1, 3]).X_test
        (train_test_split [10, 20, 30, 40, 50] [5, 6, 7, 8, 9]
          [2, 0, 4, 1, 3]).y_test
        = selectRows (List.take (nTestRows 5) [2, 0, 4, 1, 3])
            (List.zip [10, 20, 30, 40, 50] [5, 6, 7, 8, 9]) ∧
     List.zip (train_test_split [10, 20, 30, 40, 50] [5, 6, 7, 8, 9]
          [2, 0, 4, 1, 3]).X_train
        (train_test_split [10, 20, 30, 40, 50] [5, 6, 7, 8, 9]
          [2, 0, 4, 1, 3]).y_train
        = selectRows (List.drop (nTestRows 5) [2, 0, 4, 1, 3])
            (List.zip [10, 20, 30, 40, 50] [5, 6, 7, 8, 9])) ∧
    nTestRows 1000 = 200 :=
  train_test_split_partition [10, 20, 30, 40, 50] [5, 6, 7, 8, 9] 5
    [2, 0, 4, 1, 3] rfl rfl (by decide)

/-- A masked row removal only returns rows of its input. -/
theorem mem_of_mem_dropRowsAt {removed : List ℕ} {X : List α} {r : α}
    (h : r ∈ dropRowsAt removed X) : r ∈ X := by
  unfold dropRowsAt at h
  rcases List.mem_map.mp h with ⟨p, hp, hpr⟩
  have hp2 := (List.mem_filter.mp hp).1
  obtain ⟨i, x⟩ := p
  rcases List.mem_enum hp2 with ⟨hlt, hx⟩
  rw [← hpr]
  simp only [hx]
  exact List.getElem_mem hlt

/-- The first row fixes the width of a uniform nonempty row
collection. -/
theorem rowWidth_eq {rows : List (List ℚ)} {d : ℕ} (hne : rows ≠ [])
    (h : ∀ r ∈ rows, r.length = d) : rowWidth rows = d := by
  cases rows with
  | nil => exact absurd rfl hne
  | cons r t => exact h r (List.mem_cons_self r t)

/-- The centroid of a row collection has the width of its first row. -/
theorem meanRow_length (rows : List (List ℚ)) :
    (meanRow rows).length = rowWidth rows := by
  simp [meanRow]

/-- C3: every resampling transformation applied in the notebooks
(TomekLinks, ClusterCentroids, SMOTE, ADASYN, SMOTEENN) preserves
feature dimensionality — on any training matrix whose rows all have `d`
columns, every row of the resampled feature matrix also has `d` columns,
for every choice of the algorithms' data-dependent decisions (rows
removed, clusterings, interpolation pairs). -/
theorem resamplers_preserve_width (d : ℕ) (X : List (List ℚ)) (y : List ℤ)
    (hX : ∀ r ∈ X, r.length = d)
    (removed : List ℕ) (clusters : List (List (List ℚ)))
    (hc : ∀ c ∈ clusters, c ≠ [] ∧ ∀ r ∈ c, r ∈ X)
    (synths : List (ℕ × ℕ × ℚ))
    (hs : ∀ s ∈ synths, s.1 < X.length ∧ s.2.1 < X.length)
    (removed2 : List ℕ) :
    (∀ r ∈ (tomekLinksResample X y removed).1, r.length = d) ∧
    (∀ r ∈ (clusterCentroidsResample X y clusters).1, r.length = d) ∧
    (∀ r ∈ (smoteResample X y synths).1, r.length = d) ∧
    (∀ r ∈ (adasynResample X y synths).1, r.length = d) ∧
    (∀ r ∈ (smoteennResample X y synths removed2).1, r.length = d) := by
  have hsmote : ∀ r ∈ (smoteResample X y synths).1, r.length = d := by
    intro r hr
    rcases List.mem_append.mp hr with hr1 | hr1
    · exact hX r hr1
    · rcases List.mem_map.mp hr1 with ⟨s, hsm, hsr⟩
      obtain ⟨h1, h2⟩ := hs s hsm
      have ha : (X[s.1]?).getD [] = X[s.1] := by
        rw [List.getElem?_eq_getElem h1]
        rfl
      have hb : (X[s.2.1]?).getD [] = X[s.2.1] := by
        rw [List.getElem?_eq_getElem h2]
        rfl
      rw [← hsr]
      unfold interpolateRow
      rw [List.length_zipWith, ha, hb,
        hX _ (List.getElem_mem h1), hX _ (List.getElem_mem h2)]
      exact Nat.min_self d
  refine ⟨?_, ?_, hsmote, hsmote, ?_⟩
  · intro r hr
    exact hX r (mem_of_mem_dropRowsAt hr)
  · intro r hr
    rcases List.mem_append.mp hr with hr1 | hr1
    · rcases List.mem_map.mp hr1 with ⟨p, hp, hpr⟩
      have hp2 := (List.mem_filter.mp hp).1
      exact hpr ▸ hX p.1 (List.of_mem_zip (by exact hp2)).1
    · rcases List.mem_map.mp hr1 with ⟨c, hcm, hcr⟩
      obtain ⟨hne, hsub⟩ := hc c hcm
      rw [← hcr, meanRow_length, rowWidth_eq hne (fun r2 hr2 => hX r2 (hsub r2 hr2))]
  · intro r hr
    exact hsmote r (mem_of_mem_dropRowsAt hr)

/-- C3 witness on a concrete 2-column matrix, with one removed row, one
cluster, and one synthetic interpolation. -/
theorem resamplers_preserve_width_witness :
    (∀ r ∈ (tomekLinksResample [[1, 2], [3, 4]] [0, 1] [0]).1, r.length = 2) ∧
    (∀ r ∈ (clusterCentroidsResample [[1, 2], [3, 4]] [0, 1] [[[1, 2]]]).1,
      r.length = 2) ∧
    (∀ r ∈ (smoteResample [[1, 2], [3, 4]] [0, 1] [(0, 1, 1/2)]).1,
      r.length = 2) ∧
    (∀ r ∈ (adasynResample [[1, 2], [3, 4]] [0, 1] [(0, 1, 1/2)]).1,
      r.length = 2) ∧
    (∀ r ∈ (smoteennResample [[1, 2], [3, 4]] [0, 1] [(0, 1, 1/2)] [1]).1,
      r.length = 2) :=
  resamplers_preserve_width 2 [[1, 2], [3, 4]] [0, 1] (by decide) [0]
    [[[1, 2]]] (by decide) [(0, 1, 1/2)] (by decide) [1]

end MLAlgorithms
